import Mathlib

/-!
Shallow embedding of the concurrency/lifecycle core of the
drivenet/cloudprober-ocsp OCSP monitoring probe (package `ocsp`,
file `ocsp/ocsp.go`), together with theorems settling the spec's claims.

The repository snapshot contains two revisions of the probe source; they
are identical on every code path modelled here except where a doc comment
says otherwise.  Machine integers (Go `int64` counters, `time.Duration`
nanosecond values) are modelled as `Nat`: the counters are only ever
incremented starting from zero and the durations are non-negative, so no
overflow or sign behaviour is observable at the modelled inputs.
Go maps keyed by strings are modelled as association lists
(`List (String × α)`), with lookup and in-place update operations; the
network is modelled as an explicit oracle (`FetchEnv`, `NetOutcome`).
-/

namespace OcspProbe

/-- Lookup in an association list modelling a Go `map[string]α`. -/
def getEntry {α : Type} : List (String × α) → String → Option α
  | [], _ => none
  | (k', v) :: rest, k => if k' = k then some v else getEntry rest k

/-- Update (or insert) in an association list modelling `m[k] = v`. -/
def setEntry {α : Type} : List (String × α) → String → α → List (String × α)
  | [], k, v => [(k, v)]
  | (k', v') :: rest, k, v =>
    if k' = k then (k, v) :: rest else (k', v') :: setEntry rest k v

/-- The keys of an association list (the domain of the Go map). -/
def keysOf {α : Type} (m : List (String × α)) : List String :=
  m.map Prod.fst

/-- Abstraction of an `x509.Certificate` as used by the probe: an identity
tag (to distinguish certificate generations), the `OCSPServer` URL list and
the `IssuingCertificateURL` list. -/
structure Cert where
  serial : Nat
  ocspServer : List String
  issuingCertificateURL : List String
deriving DecidableEq

/-- A resolved target endpoint: `target.Name` and `target.Key()`. -/
structure Target where
  name : String
  key : String
deriving DecidableEq

/-- Oracle for the network interactions of the certificate cache:
`downloadCert` models `downloadServerCertificate` (`none` covers both the
error return and a nil certificate, the two paths on which the Go code
writes nothing and returns), and `fetchRemoteCert` models `fetchRemote`
(`none` for any error). -/
structure FetchEnv where
  downloadCert : String → Option Cert
  fetchRemoteCert : String → Option Cert

/-- State of the certificate cache: the `p.certs` and `p.issuers` maps. -/
structure CacheState where
  certs : List (String × Cert)
  issuers : List (String × Cert)
deriving DecidableEq

/-- The issuer-fetch loop inside `updateCertificates`: walk
`cert.IssuingCertificateURL` in order, `continue` on a `fetchRemote` error,
`break` on the first success; `none` when the loop ends with a nil issuer. -/
def fetchIssuer (env : FetchEnv) : List String → Option Cert
  | [] => none
  | u :: rest =>
    match env.fetchRemoteCert u with
    | some c => some c
    | none => fetchIssuer env rest

/-- `Probe.updateCertificates` (ocsp.go:569-605, identical in both
revisions): for each listed target, download the leaf; on a download error
(or nil certificate) the function `return`s, leaving the whole state as it
is.  Otherwise it first writes `p.certs[target.Key()] = cert`, then runs
the issuer-fetch loop; if no issuer is obtained it `return`s — with the new
leaf already written — and otherwise writes
`p.issuers[target.Key()] = issuer` and moves to the next target. -/
def updateCertificates (env : FetchEnv) : CacheState → List Target → CacheState
  | st, [] => st
  | st, t :: rest =>
    match env.downloadCert t.name with
    | none => st
    | some cert =>
      let st1 : CacheState := { st with certs := setEntry st.certs t.key cert }
      match fetchIssuer env cert.issuingCertificateURL with
      | none => st1
      | some issuer =>
        updateCertificates env
          { st1 with issuers := setEntry st1.issuers t.key issuer } rest

/-- Outcome of the network interaction behind one `ocspProbe` call:
`cli.Do` fails with a client timeout (`isClientTimeout` true), fails with
any other transport error, or returns a reply with an HTTP status, a flag
saying whether the body reads and parses as a valid OCSP response, and the
parsed OCSP status when it does. -/
inductive NetOutcome
  | timeoutErr
  | transportErr
  | httpReply (status : Nat) (bodyOk : Bool) (ocspStatus : Nat)
deriving DecidableEq

/-- `golang.org/x/crypto/ocsp.ServerFailed` (alias of `InternalError`, 2),
the sentinel `callResult.OCSPStatusCode` before any classification. -/
def serverFailed : Nat := 2

/-- The `callResult` record filled by `ocspProbe` (the wall-clock `spent`
field is omitted: real time is outside the embedding and no claim
depends on it). -/
structure CallResult where
  httpStatusCode : Nat
  ocspStatusCode : Nat
deriving DecidableEq

/-- Classification of a non-nil error returned by `ocspProbe`, as seen by
the caller through `isClientTimeout`.  The first revision of the source
returns the `cli.Do` error unwrapped, so a client timeout is recognised by
`isClientTimeout`'s `*url.Error` type assertion; that revision is modelled
here. -/
inductive CallError
  | clientTimeout
  | otherErr
deriving DecidableEq

/-- `ocspProbe` (ocsp.go:464-501): start from
`{HTTPStatusCode: 0, OCSPStatusCode: ocsp.ServerFailed}`; a `cli.Do` error
is returned with that default record; otherwise the HTTP status is stored,
a non-200 status is an error, a 200 body that fails to read or to parse as
an OCSP response is an error, and on a valid response the parsed status is
stored and no error is returned. -/
def ocspProbe : NetOutcome → CallResult × Option CallError
  | .timeoutErr => (⟨0, serverFailed⟩, some .clientTimeout)
  | .transportErr => (⟨0, serverFailed⟩, some .otherErr)
  | .httpReply status bodyOk ocspStatus =>
    if status ≠ 200 then (⟨status, serverFailed⟩, some .otherErr)
    else if bodyOk then (⟨status, ocspStatus⟩, none)
    else (⟨status, serverFailed⟩, some .otherErr)

/-- The `probeResult` counters for one (target, responder) pair.  The two
histograms model `metrics.Map` (default value 0); the `latency` value and
the unused `connEvent` field are omitted (real time; never read). -/
structure ProbeResult where
  total : Nat
  success : Nat
  timeouts : Nat
  respCodes : List (Nat × Nat)
  ocspCodes : List (Nat × Nat)
deriving DecidableEq

/-- `Probe.newResult`: zeroed counters and empty histograms. -/
def newResult : ProbeResult := ⟨0, 0, 0, [], []⟩

/-- `metrics.Map.IncKey`: increment a histogram key, creating it at its
default value 0 first when absent. -/
def incKey : List (Nat × Nat) → Nat → List (Nat × Nat)
  | [], k => [(k, 1)]
  | (k', c) :: rest, k =>
    if k' = k then (k', c + 1) :: rest else (k', c) :: incKey rest k

/-- Read a histogram count (0 when the key is absent). -/
def getCount : List (Nat × Nat) → Nat → Nat
  | [], _ => 0
  | (k', c) :: rest, k => if k' = k then c else getCount rest k

/-- Per-target results map, keyed by responder host (`results` in the Go
code, `map[string]*probeResult`). -/
abbrev Results := List (String × ProbeResult)

/-- `results[server]` with the lazy creation done by `runProbe`:
the stored result, or a fresh `newResult`. -/
def getOrNew (results : Results) (s : String) : ProbeResult :=
  (getEntry results s).getD newResult

/-- The body of `runProbe`'s responder loop for one responder
(ocsp.go:292-325): call `ocspProbe`, create the result entry when absent,
increment `total`, then classify: a client timeout increments `timeouts`
and returns from `runProbe`, any other error just returns, and on success
`success` is incremented and the HTTP-status and OCSP-status histograms and
latency are updated.  The returned flag is `true` when the loop continues
to the next responder and `false` on the early `return`. -/
def runFor (results : Results) (s : String) (o : NetOutcome) : Results × Bool :=
  let (call, err) := ocspProbe o
  let r0 := getOrNew results s
  let r1 := { r0 with total := r0.total + 1 }
  match err with
  | some .clientTimeout =>
    (setEntry results s { r1 with timeouts := r1.timeouts + 1 }, false)
  | some .otherErr => (setEntry results s r1, false)
  | none =>
    (setEntry results s
      { r1 with
        success := r1.success + 1
        respCodes := incKey r1.respCodes call.httpStatusCode
        ocspCodes := incKey r1.ocspCodes call.ocspStatusCode }, true)

/-- The responder loop of `runProbe`, iterating over the requests map.
The iteration order of the Go map is left abstract by taking the map as an
already-ordered list of (responder host, network outcome) pairs. -/
def runProbeLoop : List (String × NetOutcome) → Results → Results
  | [], results => results
  | (s, o) :: rest, results =>
    let step := runFor results s o
    if step.2 then runProbeLoop rest step.1 else step.1

/-- `Probe.runProbe` (ocsp.go:283-345, `requests_per_probe` at its default
value 1, the only implemented path): return immediately when
`p.issuers[target.Key()]` is absent, otherwise run the responder loop. -/
def runProbe (issuerOk : Bool) (attempts : List (String × NetOutcome))
    (results : Results) : Results :=
  if issuerOk then runProbeLoop attempts results else results

/-- One tick of the per-target worker loop of `startForTarget` as seen by
the worker: whether `ctxDone(ctx)` already holds at the top of the
iteration, the result of `p.ocspRequestForTarget(target)` (`none` on
error; otherwise the derived requests with the outcome each responder call
would produce), and whether the unlocked `p.issuers` lookup inside
`runProbe` finds the issuer. -/
structure TickInput where
  ctxCancelled : Bool
  derived : Option (List (String × NetOutcome))
  issuerOk : Bool
deriving DecidableEq

/-- Why the worker loop in `startForTarget` ended. -/
inductive ExitReason
  | cancelled
  | requestBuildFailed
deriving DecidableEq

/-- Worker-local state of `startForTarget`: the tick counter `runCnt` and
the per-responder results map. -/
structure WorkerState where
  runCnt : Nat
  results : Results
deriving DecidableEq

/-- The tick loop of `startForTarget` (second revision, part_001:311-364,
which re-derives the requests on every tick; the first revision derives
them once before the loop, with the same exit behaviour on failure): each
tick returns when the context is cancelled, returns permanently when
`ocspRequestForTarget` fails, and otherwise runs `runProbe`, increments
`runCnt`, and, when `runCnt % statsExportFrequency == 0`, emits one metric
event per responder present in the results map, carrying the cumulative
counters.  The function consumes a finite list of tick inputs and returns
the final state, the per-tick emission snapshots (`[]` on a
non-export tick), and the exit reason (`none` when the input list ran out
with the worker still looping). -/
def workerRun (freq : Nat) :
    WorkerState → List TickInput →
      WorkerState × List Results × Option ExitReason
  | st, [] => (st, [], none)
  | st, t :: rest =>
    if t.ctxCancelled then (st, [], some .cancelled)
    else
      match t.derived with
      | none => (st, [], some .requestBuildFailed)
      | some attempts =>
        let results := runProbe t.issuerOk attempts st.results
        let cnt := st.runCnt + 1
        let next := workerRun freq ⟨cnt, results⟩ rest
        (next.1, (if cnt % freq = 0 then results else []) :: next.2.1,
          next.2.2)

/-- Computation of `p.statsExportFrequency` in `Probe.Init`
(ocsp.go:155-158): integer division of the stats-export interval by the
probe interval, bumped to 1 when the quotient is zero. -/
def statsExportFrequency (exportIntervalNs intervalNs : Nat) : Nat :=
  let f := exportIntervalNs / intervalNs
  if f = 0 then 1 else f

/-- The active-worker bookkeeping of `updateTargetsAndStartProbes`
(ocsp.go:213-267), at the granularity of the `p.cancelFuncs` map (the
spec's ActiveTargetSet of per-target cancellation handles).  The resolver
result is a list of target keys (`target.Key()` per listed endpoint);
building the `activeTargets` map deduplicates the keys.  The DELETE loop
cancels and removes every key absent from `activeTargets`; the ADD loop
starts a worker for every `activeTargets` key with no entry yet and
registers its cancel function.  The returned list is the key set of
`p.cancelFuncs` after the cycle; its order abstracts the Go map iteration
order. -/
def updateTargetsAndStartProbes (resolved : List String)
    (active : List String) : List String :=
  let resolvedKeys := resolved.dedup
  let kept := active.filter (fun k => decide (k ∈ resolvedKeys))
  let added := resolvedKeys.filter (fun k => decide (k ∉ kept))
  kept ++ added

/-- `Probe.gapBetweenTargets` (ocsp.go:402-413), in nanoseconds: the
configured `interval_between_targets_msec` converted to a duration, or,
when that value is zero, `p.opts.Interval / (10 * len(p.targets))`
(integer division of nanosecond durations). -/
def gapBetweenTargets (intervalBetweenTargetsMsec intervalNs numTargets : Nat) : Nat :=
  let g := intervalBetweenTargetsMsec * 1000000
  if g = 0 then intervalNs / (10 * numTargets) else g

/-- The launch delays handed to the new-target goroutines in
`updateTargetsAndStartProbes` (ocsp.go:253-263): the i-th newly started
target sleeps `startWaitTime + jitter` nanoseconds where `startWaitTime`
grows by the gap per new target and
`jitter = rand.Int63n(gap.Microseconds()/10)` microseconds; `jitterUs i`
is the oracle for that i-th random draw.  `launchDelaysFrom gap j w i k`
lists the delays of the next `k` new targets given accumulator `w` and
index `i`. -/
def launchDelaysFrom (gapNs : Nat) (jitterUs : Nat → Nat) :
    Nat → Nat → Nat → List Nat
  | _, _, 0 => []
  | startWait, i, k + 1 =>
    (startWait + jitterUs i * 1000) ::
      launchDelaysFrom gapNs jitterUs (startWait + gapNs) (i + 1) k

/-- The launch delays of the `k` new targets of one discovery cycle. -/
def launchDelays (gapNs : Nat) (jitterUs : Nat → Nat) (k : Nat) : List Nat :=
  launchDelaysFrom gapNs jitterUs 0 0 k

/-- Events of the shutdown protocol of `Start` (ocsp.go:175-207) and its
workers: `add` is `p.waitGroup.Add(1)` before a worker goroutine is
spawned, `workerExit` is the worker's deferred `p.waitGroup.Done()` firing
as the goroutine exits, `waitReturned` is `p.waitGroup.Wait()` returning
inside `p.wait()`, and `startReturned` is `Start` itself returning. -/
inductive WgEvent
  | add
  | workerExit
  | waitReturned
  | startReturned
deriving DecidableEq

/-- Number of `waitGroup.Add(1)` calls in a trace prefix. -/
def countAdd (tr : List WgEvent) : Nat := tr.count WgEvent.add

/-- Number of worker exits (deferred `Done()` calls) in a trace prefix. -/
def countExit (tr : List WgEvent) : Nat := tr.count WgEvent.workerExit

/-- `sync.WaitGroup` semantics for a trace: wherever `Wait` returns, the
counter is zero, i.e. every `Add(1)` in the preceding prefix has been
matched by a `Done()`. -/
def wgValid (tr : List WgEvent) : Prop :=
  ∀ i : Fin tr.length, tr.get i = WgEvent.waitReturned →
    countAdd (tr.take i.val) = countExit (tr.take i.val)

/-- The shape of any complete execution of `Start` (ocsp.go:175-207): a
body of adds and worker exits — every `waitGroup.Add(1)` happens inside
`updateTargetsAndStartProbes`, called synchronously from `Start`'s body —
followed by the deferred `p.wait()` returning and then `Start` returning. -/
def startTrace (body : List WgEvent) : List WgEvent :=
  body ++ [WgEvent.waitReturned, WgEvent.startReturned]

/-- Result of the tail of `downloadServerCertificate` (ocsp.go:625-630)
once the TLS handshake has produced the peer-certificate list `certs`:
the guard `if len(certs) < 0` returns an error, and otherwise `certs[0]`
is returned — which in Go panics with an index-out-of-range when the list
is empty.  Go's `len` is a non-negative `int`, modelled as the coercion of
a list length into `Int`. -/
inductive DownloadOutcome
  | errReturn
  | indexOutOfRange
  | ok (c : Cert)
deriving DecidableEq

/-- The peer-certificate guard and selection at the end of
`downloadServerCertificate`, translated literally from the source. -/
def downloadServerCertificateTail (peerCerts : List Cert) : DownloadOutcome :=
  if ((peerCerts.length : Int) < 0) then .errReturn
  else
    match peerCerts with
    | [] => .indexOutOfRange
    | c :: _ => .ok c

/-! Concrete fixtures used by the counterexamples and witnesses. -/

/-- A target whose certificate download fails in `envC1`. -/
def targetA : Target := ⟨"a.example", "a.example:443"⟩

/-- A target whose certificate download succeeds in `envC1`. -/
def targetB : Target := ⟨"b.example", "b.example:443"⟩

/-- Leaf certificate served for `targetB`. -/
def certLeafB : Cert := ⟨10, ["http://ocsp.b"], ["http://issuer.b"]⟩

/-- Issuer certificate for `certLeafB`. -/
def certIssuerB : Cert := ⟨11, [], []⟩

/-- Fetch oracle where the download for `targetA` fails while the download
and issuer fetch for `targetB` succeed. -/
def envC1 : FetchEnv where
  downloadCert := fun n => if n = "b.example" then some certLeafB else none
  fetchRemoteCert := fun u =>
    if u = "http://issuer.b" then some certIssuerB else none

/-- Generation-1 leaf for `targetA`. -/
def certGen1 : Cert := ⟨1, ["http://ocsp.a"], ["http://issuer.a"]⟩

/-- Generation-1 issuer for `targetA`. -/
def issuerGen1 : Cert := ⟨2, [], []⟩

/-- Generation-2 leaf for `targetA`, whose issuer URL no longer resolves. -/
def certGen2 : Cert := ⟨3, ["http://ocsp.a"], ["http://issuer.a2"]⟩

/-- Fetch oracle where the download for `targetA` yields the generation-2
leaf but every issuer fetch fails. -/
def envC2 : FetchEnv where
  downloadCert := fun n => if n = "a.example" then some certGen2 else none
  fetchRemoteCert := fun _ => none

/-- Cache state holding the generation-1 pair for `targetA`. -/
def stGen1 : CacheState :=
  ⟨[("a.example:443", certGen1)], [("a.example:443", issuerGen1)]⟩

/-! Claim C1. -/

/-- C1, counterexample.  The claim says a fetch failure for one target
leaves the cycle processing every remaining target.  In `envC1` the
download for `targetA` fails and the download and issuer fetch for
`targetB` succeed; yet refreshing `[targetA, targetB]` from the empty
cache stores nothing at all — `targetB` is never processed — while
refreshing `[targetB]` alone does store its pair.  The failure aborts the
remainder of the refresh cycle. -/
theorem c1_counterexample :
    (updateCertificates envC1 ⟨[], []⟩ [targetA, targetB]).certs = [] ∧
    (updateCertificates envC1 ⟨[], []⟩ [targetB]).certs =
      [("b.example:443", certLeafB)] := by
  exact ⟨rfl, rfl⟩

/-- C1, amended.  When the certificate download for the head target fails
(error or nil certificate), `updateCertificates` returns with the whole
cache unchanged: the failing target keeps its previous pair, no other
target's pair is mutated, and the remaining targets of the list are not
processed in this cycle (they are retried on the next refresh). -/
theorem c1_refresh_failure_aborts_cycle (env : FetchEnv) (st : CacheState)
    (t : Target) (rest : List Target) (h : env.downloadCert t.name = none) :
    updateCertificates env st (t :: rest) = st := by
  simp [updateCertificates, h]

/-- C1, witness: the amended theorem applied to the concrete
`envC1` / `targetA` fixture. -/
theorem c1_refresh_failure_aborts_cycle_witness :
    updateCertificates envC1 ⟨[], []⟩ [targetA, targetB] = ⟨[], []⟩ :=
  c1_refresh_failure_aborts_cycle envC1 ⟨[], []⟩ targetA [targetB] rfl

/-! Claim C2. -/

/-- C2, counterexample.  The claim says the cache never holds a leaf from
the new fetch paired with an issuer from an earlier generation.  Starting
from the generation-1 pair for `targetA`, a refresh in which the new leaf
downloads but its issuer fetch fails leaves the cache holding the
generation-2 leaf next to the generation-1 issuer: the leaf is written
before the issuer fetch is validated. -/
theorem c2_counterexample :
    getEntry (updateCertificates envC2 stGen1 [targetA]).certs
        "a.example:443" = some certGen2 ∧
    getEntry (updateCertificates envC2 stGen1 [targetA]).issuers
        "a.example:443" = some issuerGen1 ∧
    certGen2 ≠ certGen1 := by
  refine ⟨rfl, rfl, by decide⟩

/-- C2, amended.  The stored pair is replaced wholesale only when both the
leaf download and an issuer fetch succeed; when the leaf downloads but no
issuer fetch succeeds, the new leaf is stored while the previous issuer is
retained (and the cycle aborts), so a mixed-generation pair is
observable. -/
theorem c2_pair_swap_characterisation (env : FetchEnv) (st : CacheState)
    (t : Target) (rest : List Target) (cert : Cert)
    (hd : env.downloadCert t.name = some cert) :
    (fetchIssuer env cert.issuingCertificateURL = none →
      updateCertificates env st (t :: rest) =
        { st with certs := setEntry st.certs t.key cert }) ∧
    (∀ issuer, fetchIssuer env cert.issuingCertificateURL = some issuer →
      updateCertificates env st (t :: rest) =
        updateCertificates env
          ⟨setEntry st.certs t.key cert, setEntry st.issuers t.key issuer⟩
          rest) := by
  constructor
  · intro h
    simp [updateCertificates, hd, h]
  · intro issuer h
    simp [updateCertificates, hd, h]

/-- C2, witness: the amended theorem applied to the concrete
`envC2` / `stGen1` fixture, issuer-failure branch. -/
theorem c2_pair_swap_characterisation_witness :
    updateCertificates envC2 stGen1 [targetA] =
      { stGen1 with certs := setEntry stGen1.certs targetA.key certGen2 } :=
  (c2_pair_swap_characterisation envC2 stGen1 targetA [] certGen2 rfl).1 rfl

/-! Helper lemmas for the probe-issuance layer. -/

/-- Whether `ocspProbe` returns a non-nil error for this outcome. -/
def isCallError (o : NetOutcome) : Bool :=
  ((ocspProbe o).2).isSome

/-- Whether this outcome is classified as a success (HTTP 200 with a valid
OCSP response). -/
def isSuccessOutcome : NetOutcome → Bool
  | .httpReply status bodyOk _ => status == 200 && bodyOk
  | _ => false

/-- Whether this outcome is classified as a client timeout. -/
def isTimeoutOutcome : NetOutcome → Bool
  | .timeoutErr => true
  | _ => false

/-- The record update `runFor` performs on the called responder's result
(proved equal to the source translation in `runFor_eq`). -/
def applyOutcome (r : ProbeResult) (o : NetOutcome) : ProbeResult :=
  match o with
  | .timeoutErr =>
    { r with total := r.total + 1, timeouts := r.timeouts + 1 }
  | .transportErr => { r with total := r.total + 1 }
  | .httpReply status bodyOk ocspStatus =>
    if status = 200 ∧ bodyOk then
      { r with
        total := r.total + 1
        success := r.success + 1
        respCodes := incKey r.respCodes status
        ocspCodes := incKey r.ocspCodes ocspStatus }
    else { r with total := r.total + 1 }

theorem runFor_eq (results : Results) (s : String) (o : NetOutcome) :
    runFor results s o =
      (setEntry results s (applyOutcome (getOrNew results s) o),
        !(isCallError o)) := by
  cases o with
  | timeoutErr => rfl
  | transportErr => rfl
  | httpReply status bodyOk g =>
    by_cases hst : status = 200
    · cases bodyOk
      · simp [runFor, applyOutcome, ocspProbe, isCallError, hst]
      · simp [runFor, applyOutcome, ocspProbe, isCallError, hst]
    · simp [runFor, applyOutcome, ocspProbe, isCallError, hst]

theorem getEntry_setEntry_self {α : Type} (m : List (String × α)) (k : String)
    (v : α) : getEntry (setEntry m k v) k = some v := by
  induction m with
  | nil => simp [setEntry, getEntry]
  | cons hd rest ih =>
    by_cases h : hd.1 = k
    · simp [setEntry, getEntry, h]
    · simpa [setEntry, getEntry, h] using ih

theorem getEntry_setEntry_ne {α : Type} (m : List (String × α))
    (k k' : String) (v : α) (h : k' ≠ k) :
    getEntry (setEntry m k v) k' = getEntry m k' := by
  induction m with
  | nil => simp [setEntry, getEntry, Ne.symm h]
  | cons hd rest ih =>
    by_cases hk : hd.1 = k
    · simp [setEntry, getEntry, hk, Ne.symm h]
    · simp [setEntry, getEntry, hk]
      split
      · rfl
      · exact ih

theorem getOrNew_setEntry_self (results : Results) (s : String)
    (v : ProbeResult) : getOrNew (setEntry results s v) s = v := by
  simp [getOrNew, getEntry_setEntry_self]

theorem getCount_incKey (h : List (Nat × Nat)) (k c : Nat) :
    getCount (incKey h k) c = getCount h c + (if c = k then 1 else 0) := by
  induction h with
  | nil =>
    by_cases hc : c = k
    · simp [incKey, getCount, hc]
    · simp [incKey, getCount, hc, Ne.symm hc]
  | cons hd rest ih =>
    by_cases hk : hd.1 = k
    · by_cases hc : c = k
      · simp [incKey, getCount, hk, hc]
      · simp [incKey, getCount, hk, hc, Ne.symm hc]
    · by_cases hc : hd.1 = c
      · have hck : ¬ c = k := fun e => hk (by rw [hc, e])
        simp [incKey, getCount, hk, hc, hck]
      · simpa [incKey, getCount, hk, hc] using ih

/-! Claim C5. -/

/-- C5, counterexample.  The claim says an error on one responder does not
prevent the calls to the remaining responders of the same tick.  With two
responders, a timeout on the first leaves the second with no result entry
at all for the tick — its call was never issued — although the same call on
its own would have recorded a result. -/
theorem c5_counterexample :
    getEntry
        (runProbe true
          [("s1", NetOutcome.timeoutErr),
            ("s2", NetOutcome.httpReply 200 true 0)] [])
        "s2" = none ∧
    getEntry
        (runProbe true [("s2", NetOutcome.httpReply 200 true 0)] [])
        "s2" ≠ none := by
  decide

/-- C5, amended.  Within one tick, the responder loop issues calls in
iteration order only up to and including the first call that fails: a
transport error, timeout, or protocol error on one responder's call makes
`runProbe` return at once, so every responder later in the order is left
untouched for that tick (it is retried on the next tick). -/
theorem c5_error_ends_tick (s : String) (o : NetOutcome)
    (pre post : List (String × NetOutcome)) :
    ∀ results : Results,
    (∀ a ∈ pre, isCallError a.2 = false) → isCallError o = true →
    ∀ s' : String, s' ∉ keysOf pre → s' ≠ s →
      getEntry (runProbe true (pre ++ (s, o) :: post) results) s' =
        getEntry results s' := by
  induction pre with
  | nil =>
    intro results _ herr s' _ hs
    simp only [List.nil_append, runProbe, if_pos trivial, runProbeLoop,
      runFor_eq, herr, Bool.not_true, if_neg Bool.false_ne_true]
    exact getEntry_setEntry_ne results s s' _ hs
  | cons a rest ih =>
    intro results hpre herr s' hks hs
    have ha : isCallError a.2 = false := hpre a (List.mem_cons_self a rest)
    have hs'a : s' ≠ a.1 := by
      intro e
      exact hks (e ▸ List.mem_cons_self a.1 _)
    calc getEntry (runProbe true ((a :: rest) ++ (s, o) :: post) results) s'
        = getEntry
            (runProbe true (rest ++ (s, o) :: post)
              (setEntry results a.1
                (applyOutcome (getOrNew results a.1) a.2))) s' := by
          simp only [runProbe, if_pos trivial, List.cons_append, runProbeLoop,
            runFor_eq, ha, Bool.not_false, if_pos rfl, List.append_eq]
      _ = getEntry
            (setEntry results a.1
              (applyOutcome (getOrNew results a.1) a.2)) s' := by
          refine ih _ (fun b hb => hpre b (List.mem_cons_of_mem a hb)) herr s'
            (fun hb => hks (List.mem_cons_of_mem a.1 hb)) hs
      _ = getEntry results s' :=
          getEntry_setEntry_ne results a.1 s' _ hs'a

/-- C5, witness: the amended theorem applied with one succeeding responder
before the failing one and one responder after it. -/
theorem c5_error_ends_tick_witness :
    getEntry
        (runProbe true
          [("s0", NetOutcome.httpReply 200 true 0),
            ("s1", NetOutcome.transportErr),
            ("s2", NetOutcome.httpReply 200 true 0)] [])
        "s2" = getEntry ([] : Results) "s2" :=
  c5_error_ends_tick "s1" NetOutcome.transportErr
    [("s0", NetOutcome.httpReply 200 true 0)]
    [("s2", NetOutcome.httpReply 200 true 0)] []
    (by decide) (by decide) "s2" (by decide) (by decide)

/-! Claim C3. -/

/-- The probe attempts seen by one responder of one target across a
sequence of worker ticks: each tick calls `runProbe` with the same
single-responder request map, and the outcome list gives the network
outcome of each tick's call. -/
def singleResponderRun (s : String) (os : List NetOutcome)
    (results : Results) : Results :=
  os.foldl (fun res o => runProbe true [(s, o)] res) results

theorem runProbe_single (s : String) (o : NetOutcome) (res : Results) :
    runProbe true [(s, o)] res =
      setEntry res s (applyOutcome (getOrNew res s) o) := by
  simp only [runProbe, if_pos trivial, runProbeLoop, runFor_eq]
  split <;> rfl

theorem singleResponderRun_getOrNew (s : String) :
    ∀ (os : List NetOutcome) (res : Results),
      getOrNew (singleResponderRun s os res) s =
        os.foldl applyOutcome (getOrNew res s) := by
  intro os
  induction os with
  | nil => intro res; rfl
  | cons o rest ih =>
    intro res
    have : singleResponderRun s (o :: rest) res =
        singleResponderRun s rest
          (setEntry res s (applyOutcome (getOrNew res s) o)) := by
      simp [singleResponderRun, runProbe_single]
    rw [this, ih, getOrNew_setEntry_self]
    rfl

theorem applyOutcome_stats (r : ProbeResult) (o : NetOutcome) :
    (applyOutcome r o).total = r.total + 1 ∧
    (applyOutcome r o).success =
      r.success + (if isSuccessOutcome o then 1 else 0) ∧
    (applyOutcome r o).timeouts =
      r.timeouts + (if isTimeoutOutcome o then 1 else 0) ∧
    ∀ c, getCount (applyOutcome r o).respCodes c =
      getCount r.respCodes c +
        (if c = 200 ∧ isSuccessOutcome o then 1 else 0) := by
  cases o with
  | timeoutErr => simp [applyOutcome, isSuccessOutcome, isTimeoutOutcome]
  | transportErr => simp [applyOutcome, isSuccessOutcome, isTimeoutOutcome]
  | httpReply status bodyOk g =>
    by_cases hok : status = 200 ∧ bodyOk = true
    · obtain ⟨hst, hb⟩ := hok
      subst hst
      simp [applyOutcome, isSuccessOutcome, isTimeoutOutcome, hb,
        getCount_incKey]
    · have hsucc : isSuccessOutcome (.httpReply status bodyOk g) = false := by
        cases hb : bodyOk
        · simp [isSuccessOutcome]
        · have hst : ¬ status = 200 := fun hst => hok ⟨hst, hb⟩
          simp [isSuccessOutcome, hst]
      simp [applyOutcome, isTimeoutOutcome, hok, hsucc]

theorem foldl_applyOutcome_stats :
    ∀ (os : List NetOutcome) (r : ProbeResult),
      (os.foldl applyOutcome r).total = r.total + os.length ∧
      (os.foldl applyOutcome r).success =
        r.success + os.countP (fun o => isSuccessOutcome o) ∧
      (os.foldl applyOutcome r).timeouts =
        r.timeouts + os.countP (fun o => isTimeoutOutcome o) ∧
      ∀ c, getCount (os.foldl applyOutcome r).respCodes c =
        getCount r.respCodes c +
          (if c = 200 then os.countP (fun o => isSuccessOutcome o) else 0) := by
  intro os
  induction os with
  | nil => intro r; simp
  | cons o rest ih =>
    intro r
    obtain ⟨ht, hs, hto, hrc⟩ := ih (applyOutcome r o)
    obtain ⟨at', as', ato, arc⟩ := applyOutcome_stats r o
    refine ⟨?_, ?_, ?_, ?_⟩
    · simp only [List.foldl_cons, ht, at', List.length_cons]
      omega
    · simp only [List.foldl_cons, hs, as', List.countP_cons]
      by_cases h : isSuccessOutcome o <;> simp [h] <;> omega
    · simp only [List.foldl_cons, hto, ato, List.countP_cons]
      by_cases h : isTimeoutOutcome o <;> simp [h] <;> omega
    · intro c
      simp only [List.foldl_cons, hrc c, arc c, List.countP_cons]
      by_cases hc : c = 200
      · by_cases h : isSuccessOutcome o <;> simp [h, hc] <;> omega
      · simp [hc]

/-- C3, counterexample.  For one responder seeing three valid-200 probes,
one client timeout and one HTTP 404, the resulting counters are
total=5, success=3, timeouts=1 — but the HTTP-status histogram holds no
entry at all for 404 (count 0, not the claimed single entry): the
histograms are only updated on the success path, which a non-200 response
never reaches. -/
theorem c3_counterexample :
    (getOrNew
        (singleResponderRun "resp"
          [.httpReply 200 true 0, .httpReply 200 true 0,
            .httpReply 200 true 0, .timeoutErr, .httpReply 404 true 0] [])
        "resp").total = 5 ∧
    (getOrNew
        (singleResponderRun "resp"
          [.httpReply 200 true 0, .httpReply 200 true 0,
            .httpReply 200 true 0, .timeoutErr, .httpReply 404 true 0] [])
        "resp").success = 3 ∧
    (getOrNew
        (singleResponderRun "resp"
          [.httpReply 200 true 0, .httpReply 200 true 0,
            .httpReply 200 true 0, .timeoutErr, .httpReply 404 true 0] [])
        "resp").timeouts = 1 ∧
    getCount
        (getOrNew
          (singleResponderRun "resp"
            [.httpReply 200 true 0, .httpReply 200 true 0,
              .httpReply 200 true 0, .timeoutErr, .httpReply 404 true 0] [])
          "resp").respCodes 404 ≠ 1 := by
  decide

/-- C3, amended.  For one responder over any outcome sequence: every
attempt increments `total`; only an HTTP-200 reply with a valid OCSP
response increments `success`; `timeouts` counts the client-timeout
attempts; and the HTTP-status histogram records only the successful
attempts under key 200 — a non-200 status never produces a histogram
entry.  In the claimed scenario this gives total=5, success=3, timeouts=1
and no histogram entry for the non-200 code. -/
theorem c3_single_responder_counters (s : String) (os : List NetOutcome) :
    (getOrNew (singleResponderRun s os []) s).total = os.length ∧
    (getOrNew (singleResponderRun s os []) s).success =
      os.countP (fun o => isSuccessOutcome o) ∧
    (getOrNew (singleResponderRun s os []) s).timeouts =
      os.countP (fun o => isTimeoutOutcome o) ∧
    getCount (getOrNew (singleResponderRun s os []) s).respCodes 200 =
      os.countP (fun o => isSuccessOutcome o) ∧
    ∀ c, c ≠ 200 →
      getCount (getOrNew (singleResponderRun s os []) s).respCodes c = 0 := by
  have hb := singleResponderRun_getOrNew s os []
  have h0 : getOrNew ([] : Results) s = newResult := rfl
  rw [h0] at hb
  obtain ⟨ht, hs, hto, hrc⟩ := foldl_applyOutcome_stats os newResult
  rw [hb]
  refine ⟨by simpa [newResult] using ht, by simpa [newResult] using hs,
    by simpa [newResult] using hto, ?_, ?_⟩
  · simpa [newResult, getCount] using hrc 200
  · intro c hc
    simpa [newResult, getCount, hc] using hrc c

/-- C3, witness: the amended theorem applied to the claimed
3-success / 1-timeout / 1-non-200 sequence. -/
theorem c3_single_responder_counters_witness :
    (getOrNew
        (singleResponderRun "resp"
          [.timeoutErr, .httpReply 200 true 0, .httpReply 200 true 0,
            .httpReply 404 false 2, .httpReply 200 true 0] [])
        "resp").total = 5 ∧
    (getOrNew
        (singleResponderRun "resp"
          [.timeoutErr, .httpReply 200 true 0, .httpReply 200 true 0,
            .httpReply 404 false 2, .httpReply 200 true 0] [])
        "resp").success = 3 ∧
    getCount
        (getOrNew
          (singleResponderRun "resp"
            [.timeoutErr, .httpReply 200 true 0, .httpReply 200 true 0,
              .httpReply 404 false 2, .httpReply 200 true 0] [])
          "resp").respCodes 404 = 0 := by
  obtain ⟨ht, hs, hto, h200, hother⟩ :=
    c3_single_responder_counters "resp"
      [.timeoutErr, .httpReply 200 true 0, .httpReply 200 true 0,
        .httpReply 404 false 2, .httpReply 200 true 0]
  exact ⟨by simpa using ht, by simpa using hs, hother 404 (by decide)⟩

/-! Claim C4. -/

/-- C4, counterexample.  The claim says context cancellation is the only
way a worker's loop terminates, a failed request derivation merely
skipping the tick.  A single tick that is not cancelled but whose
`ocspRequestForTarget` fails makes the loop return permanently with a
non-cancellation exit reason. -/
theorem c4_counterexample :
    (workerRun 1 ⟨0, []⟩ [⟨false, none, true⟩]).2.2 =
      some ExitReason.requestBuildFailed ∧
    ExitReason.requestBuildFailed ≠ ExitReason.cancelled := by
  decide

/-- C4, amended.  The worker loop of `startForTarget` terminates either
because the context was cancelled at the top of a tick, or because the
request derivation (`ocspRequestForTarget`) failed on a tick — no cached
certificate, no issuer, or no declared responders — in which case the
worker exits permanently instead of skipping the tick. -/
theorem c4_worker_exit_characterisation (freq : Nat) (ticks : List TickInput)
    (st : WorkerState) (r : ExitReason)
    (h : (workerRun freq st ticks).2.2 = some r) :
    (r = .cancelled ∧ ∃ t ∈ ticks, t.ctxCancelled = true) ∨
    (r = .requestBuildFailed ∧ ∃ t ∈ ticks, t.derived = none) := by
  induction ticks generalizing st with
  | nil => exact absurd h (by simp [workerRun])
  | cons t rest ih =>
    cases hc : t.ctxCancelled with
    | true =>
      simp only [workerRun, hc, if_pos] at h
      left
      exact ⟨(Option.some.inj h).symm, t, List.mem_cons_self t rest, hc⟩
    | false =>
      cases hd : t.derived with
      | none =>
        simp only [workerRun, hc, Bool.false_eq_true, if_neg, hd] at h
        right
        exact ⟨(Option.some.inj h).symm, t, List.mem_cons_self t rest, hd⟩
      | some attempts =>
        simp only [workerRun, hc, Bool.false_eq_true, if_neg, hd] at h
        rcases ih _ h with ⟨hr, t', ht', hprop⟩ | ⟨hr, t', ht', hprop⟩
        · exact Or.inl ⟨hr, t', List.mem_cons_of_mem t ht', hprop⟩
        · exact Or.inr ⟨hr, t', List.mem_cons_of_mem t ht', hprop⟩

/-- C4, witness: the amended theorem applied to a run whose second tick is
cancelled. -/
theorem c4_worker_exit_characterisation_witness :
    (ExitReason.cancelled = ExitReason.cancelled ∧
      ∃ t ∈ [(⟨false, some [], true⟩ : TickInput), ⟨true, some [], true⟩],
        t.ctxCancelled = true) ∨
    (ExitReason.cancelled = ExitReason.requestBuildFailed ∧
      ∃ t ∈ [(⟨false, some [], true⟩ : TickInput), ⟨true, some [], true⟩],
        t.derived = none) :=
  c4_worker_exit_characterisation 1
    [⟨false, some [], true⟩, ⟨true, some [], true⟩] ⟨0, []⟩
    ExitReason.cancelled (by decide)

/-! Claim C6. -/

/-- C6.  One discovery cycle (`updateTargetsAndStartProbes`) maps any
duplicate-free set of active worker keys to exactly the resolver's key
set: workers for keys no longer resolved are cancelled and removed, a
worker is started for every resolved key that has none, a key already
owning a worker is skipped, and so the resulting handle map has exactly
one entry per resolved key — never two workers for one key. -/
theorem c6_worker_set_equals_resolver_set (resolved active : List String)
    (h : active.Nodup) :
    (updateTargetsAndStartProbes resolved active).Nodup ∧
    ∀ k, k ∈ updateTargetsAndStartProbes resolved active ↔ k ∈ resolved := by
  unfold updateTargetsAndStartProbes
  constructor
  · refine List.Nodup.append (h.filter _) ((resolved.nodup_dedup).filter _) ?_
    intro k hk hka
    have := (List.mem_filter.mp hka).2
    exact (of_decide_eq_true this) hk
  · intro k
    constructor
    · intro hk
      rcases List.mem_append.mp hk with hk | hk
      · exact List.mem_dedup.mp
          (of_decide_eq_true (List.mem_filter.mp hk).2)
      · exact List.mem_dedup.mp (List.mem_filter.mp hk).1
    · intro hk
      by_cases hkept :
          k ∈ active.filter (fun k => decide (k ∈ resolved.dedup))
      · exact List.mem_append.mpr (Or.inl hkept)
      · refine List.mem_append.mpr (Or.inr ?_)
        exact List.mem_filter.mpr
          ⟨List.mem_dedup.mpr hk, decide_eq_true hkept⟩

/-- C6, witness: a cycle that drops one target, keeps one and adds one. -/
theorem c6_worker_set_equals_resolver_set_witness :
    (updateTargetsAndStartProbes ["b", "c"] ["a", "b"]).Nodup ∧
    ∀ k, k ∈ updateTargetsAndStartProbes ["b", "c"] ["a", "b"] ↔
      k ∈ ["b", "c"] :=
  c6_worker_set_equals_resolver_set ["b", "c"] ["a", "b"] (by decide)

/-! Claim C7. -/

theorem launchDelaysFrom_getD (gapNs : Nat) (jitterUs : Nat → Nat) :
    ∀ (k startWait i n : Nat), n < k →
      (launchDelaysFrom gapNs jitterUs startWait i k).getD n 0 =
        startWait + n * gapNs + jitterUs (i + n) * 1000 := by
  intro k
  induction k with
  | zero => intro _ _ n hn; exact absurd hn (Nat.not_lt_zero n)
  | succ k ih =>
    intro startWait i n hn
    cases n with
    | zero => simp [launchDelaysFrom]
    | succ n =>
      have h1 : (launchDelaysFrom gapNs jitterUs startWait i (k + 1)).getD
          (n + 1) 0 =
          (launchDelaysFrom gapNs jitterUs (startWait + gapNs) (i + 1) k).getD
            n 0 := rfl
      rw [h1, ih (startWait + gapNs) (i + 1) n (Nat.lt_of_succ_lt_succ hn)]
      have h2 : i + 1 + n = i + (n + 1) := by omega
      rw [h2, Nat.succ_mul]
      ring

/-- C7.  The gap is the configured per-target spacing, or
`interval / (10 * targetCount)` when that spacing is zero; within one
discovery cycle the i-th newly launched target (0-based, in discovery
order) sleeps `i * gap + jitter` nanoseconds where the jitter — a random
draw below a tenth of the gap in microseconds, converted to nanoseconds —
lies in `[0, gap/10)`; hence the i-th delay lies in
`[i*gap, i*gap + gap/10)` and the delays strictly increase in discovery
order.  The hypothesis `10000 ≤ gap` keeps the jitter draw well-defined:
for a smaller gap `rand.Int63n` would receive a non-positive bound. -/
theorem c7_stagger_delays (gapMsec intervalNs numTargets : Nat)
    (jitterUs : Nat → Nat) (k : Nat)
    (hgap : 10000 ≤ gapBetweenTargets gapMsec intervalNs numTargets)
    (hj : ∀ i, jitterUs i <
      gapBetweenTargets gapMsec intervalNs numTargets / 1000 / 10) :
    (gapMsec = 0 → gapBetweenTargets gapMsec intervalNs numTargets =
      intervalNs / (10 * numTargets)) ∧
    (gapMsec ≠ 0 → gapBetweenTargets gapMsec intervalNs numTargets =
      gapMsec * 1000000) ∧
    ∀ n, n < k →
      (launchDelays (gapBetweenTargets gapMsec intervalNs numTargets)
          jitterUs k).getD n 0 =
        n * gapBetweenTargets gapMsec intervalNs numTargets +
          jitterUs n * 1000 ∧
      n * gapBetweenTargets gapMsec intervalNs numTargets ≤
        (launchDelays (gapBetweenTargets gapMsec intervalNs numTargets)
          jitterUs k).getD n 0 ∧
      (launchDelays (gapBetweenTargets gapMsec intervalNs numTargets)
          jitterUs k).getD n 0 <
        n * gapBetweenTargets gapMsec intervalNs numTargets +
          gapBetweenTargets gapMsec intervalNs numTargets / 10 ∧
      (n + 1 < k →
        (launchDelays (gapBetweenTargets gapMsec intervalNs numTargets)
            jitterUs k).getD n 0 <
          (launchDelays (gapBetweenTargets gapMsec intervalNs numTargets)
            jitterUs k).getD (n + 1) 0) := by
  set gap := gapBetweenTargets gapMsec intervalNs numTargets with hgapdef
  have hpos : 0 < gap := lt_of_lt_of_le (by norm_num) hgap
  have hjit : ∀ i, jitterUs i * 1000 < gap / 10 := by
    intro i
    have h1 : gap / 1000 / 10 = gap / 10000 := by
      rw [Nat.div_div_eq_div_mul]
    have h2 : jitterUs i < gap / 10000 := h1 ▸ hj i
    have h3 : jitterUs i * 1000 < gap / 10000 * 1000 :=
      (Nat.mul_lt_mul_right (by norm_num)).mpr h2
    have h4 : gap / 10000 * 1000 ≤ gap / 10 := by
      have : gap / 10000 = gap / 10 / 1000 := by
        rw [Nat.div_div_eq_div_mul]
      rw [this]
      exact Nat.div_mul_le_self _ _
    exact lt_of_lt_of_le h3 h4
  have hget : ∀ n, n < k →
      (launchDelays gap jitterUs k).getD n 0 =
        n * gap + jitterUs n * 1000 := by
    intro n hn
    have := launchDelaysFrom_getD gap jitterUs k 0 0 n hn
    simpa [launchDelays] using this
  refine ⟨?_, ?_, ?_⟩
  · intro h0; simp [hgapdef, gapBetweenTargets, h0]
  · intro h0; simp [hgapdef, gapBetweenTargets, h0]
  · intro n hn
    refine ⟨hget n hn, ?_, ?_, ?_⟩
    · rw [hget n hn]; exact Nat.le_add_right _ _
    · rw [hget n hn]
      exact Nat.add_lt_add_left (hjit n) _
    · intro hn1
      rw [hget n hn, hget (n + 1) (by omega)]
      have hd10 : gap / 10 < gap := Nat.div_lt_self hpos (by norm_num)
      have : n * gap + jitterUs n * 1000 < n * gap + gap :=
        Nat.add_lt_add_left (lt_trans (hjit n) hd10) _
      calc n * gap + jitterUs n * 1000
          < n * gap + gap := this
        _ = (n + 1) * gap := by ring
        _ ≤ (n + 1) * gap + jitterUs (n + 1) * 1000 := Nat.le_add_right _ _

/-- C7, witness: the configured default gap of 10 ms with zero jitter
draws and two new targets. -/
theorem c7_stagger_delays_witness :
    (launchDelays (gapBetweenTargets 10 0 0) (fun _ => 0) 2).getD 0 0 =
        0 * gapBetweenTargets 10 0 0 + 0 * 1000 ∧
    (launchDelays (gapBetweenTargets 10 0 0) (fun _ => 0) 2).getD 0 0 <
        0 * gapBetweenTargets 10 0 0 + gapBetweenTargets 10 0 0 / 10 := by
  have h := (c7_stagger_delays 10 0 0 (fun _ => 0) 2 (by decide)
    (by intro i
        show (0 : Nat) < gapBetweenTargets 10 0 0 / 1000 / 10
        decide)).2.2 0 (by decide)
  exact ⟨h.1, h.2.2.1⟩

/-! Claim C8. -/

theorem mem_keysOf_setEntry {α : Type} (m : List (String × α))
    (k x : String) (v : α) (h : x ∈ keysOf (setEntry m k v)) :
    x ∈ keysOf m ∨ x = k := by
  induction m with
  | nil =>
    right
    simpa [setEntry, keysOf] using h
  | cons hd rest ih =>
    by_cases hk : hd.1 = k
    · rcases (by simpa [setEntry, keysOf, hk] using h : x = k ∨ x ∈ keysOf rest)
        with h' | h'
      · exact Or.inr h'
      · exact Or.inl (by simp [keysOf]; right; simpa [keysOf] using h')
    · rcases (by simpa [setEntry, keysOf, hk] using h :
          x = hd.1 ∨ x ∈ keysOf (setEntry rest k v)) with h' | h'
      · exact Or.inl (by simp [keysOf, h'])
      · rcases ih h' with h'' | h''
        · exact Or.inl (by simp [keysOf]; right; simpa [keysOf] using h'')
        · exact Or.inr h''

theorem keysOf_setEntry_nodup {α : Type} (m : List (String × α))
    (k : String) (v : α) (h : (keysOf m).Nodup) :
    (keysOf (setEntry m k v)).Nodup := by
  induction m with
  | nil => simp [setEntry, keysOf]
  | cons hd rest ih =>
    obtain ⟨h1, h2⟩ :=
      List.nodup_cons.mp (show (hd.1 :: keysOf rest).Nodup from h)
    by_cases hk : hd.1 = k
    · have hse : setEntry (hd :: rest) k v = (k, v) :: rest := by
        simp [setEntry, hk]
      rw [hse]
      exact List.nodup_cons.mpr ⟨hk ▸ h1, h2⟩
    · have h3 : hd.1 ∉ keysOf (setEntry rest k v) := by
        intro hx
        rcases mem_keysOf_setEntry rest k hd.1 v hx with hx | hx
        · exact h1 hx
        · exact hk hx
      have hse : setEntry (hd :: rest) k v = hd :: setEntry rest k v := by
        simp [setEntry, hk]
      rw [hse]
      exact List.nodup_cons.mpr ⟨h3, ih h2⟩

theorem runProbeLoop_keys_nodup :
    ∀ (attempts : List (String × NetOutcome)) (results : Results),
      (keysOf results).Nodup → (keysOf (runProbeLoop attempts results)).Nodup := by
  intro attempts
  induction attempts with
  | nil => intro results h; exact h
  | cons a rest ih =>
    intro results h
    obtain ⟨s, o⟩ := a
    have hset := keysOf_setEntry_nodup results s
      (applyOutcome (getOrNew results s) o) h
    simp only [runProbeLoop, runFor_eq]
    cases hE : isCallError o
    · simpa [hE] using ih _ hset
    · simpa [hE] using hset

theorem runProbe_keys_nodup (issuerOk : Bool)
    (attempts : List (String × NetOutcome)) (results : Results)
    (h : (keysOf results).Nodup) :
    (keysOf (runProbe issuerOk attempts results)).Nodup := by
  cases issuerOk
  · simpa [runProbe] using h
  · simpa [runProbe] using runProbeLoop_keys_nodup attempts results h

theorem workerRun_keys_nodup (freq : Nat) :
    ∀ (ticks : List TickInput) (st : WorkerState),
      (keysOf st.results).Nodup →
      (keysOf (workerRun freq st ticks).1.results).Nodup := by
  intro ticks
  induction ticks with
  | nil => intro st h; exact h
  | cons t rest ih =>
    intro st h
    cases hc : t.ctxCancelled
    · cases hd : t.derived with
      | none => simpa [workerRun, hc, hd] using h
      | some attempts =>
        simpa [workerRun, hc, hd] using
          ih ⟨st.runCnt + 1, runProbe t.issuerOk attempts st.results⟩
            (runProbe_keys_nodup t.issuerOk attempts st.results h)
    · simpa [workerRun, hc] using h

theorem workerRun_alive (freq : Nat) :
    ∀ (ticks : List TickInput) (st : WorkerState),
      (∀ t ∈ ticks, t.ctxCancelled = false ∧ t.derived ≠ none) →
      (workerRun freq st ticks).2.2 = none ∧
      ((workerRun freq st ticks).2.1).length = ticks.length ∧
      ∀ n, n < ticks.length →
        ((workerRun freq st ticks).2.1).getD n [] =
          if (st.runCnt + n + 1) % freq = 0
          then (workerRun freq st (ticks.take (n + 1))).1.results
          else [] := by
  intro ticks
  induction ticks with
  | nil =>
    intro st _
    exact ⟨rfl, rfl, fun n hn => absurd hn (Nat.not_lt_zero n)⟩
  | cons t rest ih =>
    intro st halive
    obtain ⟨hc, hd⟩ := halive t (List.mem_cons_self t rest)
    obtain ⟨attempts, hat⟩ := Option.ne_none_iff_exists'.mp hd
    have hrest : ∀ t' ∈ rest, t'.ctxCancelled = false ∧ t'.derived ≠ none :=
      fun t' ht' => halive t' (List.mem_cons_of_mem t ht')
    obtain ⟨ih1, ih2, ih3⟩ :=
      ih ⟨st.runCnt + 1, runProbe t.issuerOk attempts st.results⟩ hrest
    have ih3' : ∀ n, n < rest.length →
        ((workerRun freq
            ⟨st.runCnt + 1, runProbe t.issuerOk attempts st.results⟩
            rest).2.1).getD n [] =
          if (st.runCnt + 1 + n + 1) % freq = 0
          then (workerRun freq
              ⟨st.runCnt + 1, runProbe t.issuerOk attempts st.results⟩
              (rest.take (n + 1))).1.results
          else [] := fun n hn => by simpa using ih3 n hn
    have hstep : workerRun freq st (t :: rest) =
        ((workerRun freq
            ⟨st.runCnt + 1, runProbe t.issuerOk attempts st.results⟩
            rest).1,
          (if (st.runCnt + 1) % freq = 0
            then runProbe t.issuerOk attempts st.results else []) ::
            (workerRun freq
              ⟨st.runCnt + 1, runProbe t.issuerOk attempts st.results⟩
              rest).2.1,
          (workerRun freq
            ⟨st.runCnt + 1, runProbe t.issuerOk attempts st.results⟩
            rest).2.2) := by
      simp [workerRun, hc, hat]
    refine ⟨by rw [hstep]; exact ih1, by rw [hstep]; simpa using ih2, ?_⟩
    intro n hn
    cases n with
    | zero =>
      rw [hstep]
      simp only [List.getD_cons_zero]
      have hone : (workerRun freq st ((t :: rest).take 1)).1.results =
          runProbe t.issuerOk attempts st.results := by
        simp [workerRun, hc, hat]
      rw [hone]
    | succ n =>
      rw [hstep]
      simp only [List.getD_cons_succ]
      have hn' : n < rest.length := by simpa using Nat.lt_of_succ_lt_succ hn
      rw [ih3' n hn']
      have harg : st.runCnt + 1 + n + 1 = st.runCnt + (n + 1) + 1 := by omega
      rw [harg]
      have hbody : (workerRun freq st ((t :: rest).take (n + 1 + 1))).1 =
          (workerRun freq
            ⟨st.runCnt + 1, runProbe t.issuerOk attempts st.results⟩
            (rest.take (n + 1))).1 := by
        show (workerRun freq st (t :: rest.take (n + 1))).1 = _
        simp [workerRun, hc, hat]
      rw [hbody]

/-- C8.  With the stats-export interval equal to five times the poll
interval, `p.statsExportFrequency` — computed once in `Init` as the
integer quotient of the two intervals, bumped to 1 when zero, i.e.
`max(1, export/interval)` — is 5, and over any uninterrupted run of the
worker loop the per-tick emissions are: nothing on a tick whose 1-based
count is not a multiple of 5, and on every 5th tick exactly one event per
responder present in the results map (keys are pairwise distinct),
carrying the cumulative counters accumulated up to and including that
tick. -/
theorem c8_export_every_fifth_tick (exportNs intervalNs : Nat)
    (hI : 0 < intervalNs) (hE : exportNs = 5 * intervalNs)
    (st : WorkerState) (hcnt : st.runCnt = 0)
    (hkeys : (keysOf st.results).Nodup) (ticks : List TickInput)
    (halive : ∀ t ∈ ticks, t.ctxCancelled = false ∧ t.derived ≠ none) :
    statsExportFrequency exportNs intervalNs = 5 ∧
    (workerRun 5 st ticks).2.2 = none ∧
    ((workerRun 5 st ticks).2.1).length = ticks.length ∧
    (∀ n, n < ticks.length →
      ((workerRun 5 st ticks).2.1).getD n [] =
        if (n + 1) % 5 = 0
        then (workerRun 5 st (ticks.take (n + 1))).1.results
        else []) ∧
    (∀ n, n < ticks.length →
      (keysOf (((workerRun 5 st ticks).2.1).getD n [])).Nodup) := by
  have hfreq : statsExportFrequency exportNs intervalNs = 5 := by
    rw [statsExportFrequency, hE, Nat.mul_div_cancel _ hI]
    norm_num
  obtain ⟨h1, h2, h3⟩ := workerRun_alive 5 ticks st halive
  refine ⟨hfreq, h1, h2, ?_, ?_⟩
  · intro n hn
    have h4 := h3 n hn
    rw [hcnt] at h4
    simpa using h4
  · intro n hn
    have h4 := h3 n hn
    rw [h4]
    split
    · exact workerRun_keys_nodup 5 (ticks.take (n + 1)) st hkeys
    · simp [keysOf]

/-- Five uninterrupted single-responder ticks, used by the C8 witness. -/
def ticksC8 : List TickInput :=
  List.replicate 5 ⟨false, some [("r", NetOutcome.httpReply 200 true 0)], true⟩

/-- C8, witness: the theorem applied to a 10-unit poll interval, a 50-unit
export interval and five uninterrupted ticks. -/
theorem c8_export_every_fifth_tick_witness :
    statsExportFrequency 50 10 = 5 ∧
    (workerRun 5 ⟨0, []⟩ ticksC8).2.2 = none ∧
    ((workerRun 5 ⟨0, []⟩ ticksC8).2.1).length = ticksC8.length ∧
    (∀ n, n < ticksC8.length →
      ((workerRun 5 ⟨0, []⟩ ticksC8).2.1).getD n [] =
        if (n + 1) % 5 = 0
        then (workerRun 5 ⟨0, []⟩ (ticksC8.take (n + 1))).1.results
        else []) ∧
    (∀ n, n < ticksC8.length →
      (keysOf (((workerRun 5 ⟨0, []⟩ ticksC8).2.1).getD n [])).Nodup) :=
  c8_export_every_fifth_tick 50 10 (by decide) (by decide) ⟨0, []⟩ rfl
    (by decide) ticksC8 (by decide)

/-! Claim C9. -/

/-- C9.  In any complete execution of `Start` — a body of
`waitGroup.Add(1)` calls and worker exits, followed by the deferred
`p.wait()` returning and `Start` returning — `sync.WaitGroup` semantics
force the wait counter to be zero when `Wait` returns, so at the moment
`Start` returns every `Add(1)` has been matched by a worker's deferred
`Done()`: no worker goroutine outlives the top-level run. -/
theorem c9_start_returns_after_workers_exit (body : List WgEvent)
    (hw : wgValid (startTrace body)) :
    countAdd body = countExit body := by
  have hlen : body.length < (startTrace body).length := by
    simp [startTrace]
  have hget : (startTrace body).get ⟨body.length, hlen⟩ =
      WgEvent.waitReturned := by
    simp [startTrace, List.get_eq_getElem, List.getElem_append_right,
      le_refl]
  have := hw ⟨body.length, hlen⟩ hget
  simpa [startTrace, List.take_left] using this

/-- C9, witness: a run that started one worker which exited before the
shutdown completed. -/
theorem c9_start_returns_after_workers_exit_witness :
    countAdd [WgEvent.add, WgEvent.workerExit] =
      countExit [WgEvent.add, WgEvent.workerExit] :=
  c9_start_returns_after_workers_exit [WgEvent.add, WgEvent.workerExit]
    (by unfold wgValid; decide)

/-! Claim C10. -/

/-- C10.  The claim (and the spec's stated intent) is that an empty
peer-certificate list makes `downloadServerCertificate` return an error and
that `certs[0]` is reached only on a non-empty list.  The code's guard is
`if len(certs) < 0`, which never fires since `len` is non-negative, so on
an empty list the function falls through to `certs[0]` and panics instead
of returning the `"empty peer certificates"` error sitting in the dead
guard. -/
theorem c10_empty_peer_list_panics :
    downloadServerCertificateTail [] = DownloadOutcome.indexOutOfRange ∧
    downloadServerCertificateTail [] ≠ DownloadOutcome.errReturn := by
  decide

end OcspProbe
